import Mathlib

/-!
Verification of the ILI9341 TFT driver (ili9341.c) of the reloj-ili9341
firmware.  The driver is shallowly embedded: every SPI transfer is recorded
as an event (a command byte sent with D/C low, or a data packet sent with
D/C high), and each C function becomes a Lean function from its arguments
to the list of events it emits (plus, for `ILI9341Rotate`, the updated
orientation state).  Machine integers are modelled as `Nat`/`Int` with the
relevant two's-complement wraps (`int16_t`, `int32_t`, `uint32_t`) made
explicit where the C code can overflow.
-/

/-- Transfer-buffer capacity, `MAX_VALUE_SIZE` in ili9341.c (256 bytes). -/
def MAX_VALUE_SIZE : Nat := 256

/-- Command opcode `SEND_PIXELS` (0x00): raw pixel-stream continuation,
`WriteLCD` sends no command byte for it. -/
def SEND_PIXELS : Nat := 0x00

/-- Command opcode `COLUMN_ADDR_SET` (0x2A). -/
def COLUMN_ADDR_SET : Nat := 0x2A

/-- Command opcode `PAGE_ADDR_SET` (0x2B). -/
def PAGE_ADDR_SET : Nat := 0x2B

/-- Command opcode `MEM_WRITE` (0x2C). -/
def MEM_WRITE : Nat := 0x2C

/-- Command opcode `MEM_ACC_CTRL` (0x36). -/
def MEM_ACC_CTRL : Nat := 0x36

/-- Macro `HighByte(x)`: `x >> 8`, the high byte of a 16-bit value. -/
def HighByte (x : Nat) : Nat := x >>> 8

/-- Macro `LowByte(x)`: `x & 0xFF`, the low byte of a 16-bit value. -/
def LowByte (x : Nat) : Nat := x &&& 0xFF

/-- Two's-complement truncation to `int16_t`. -/
def wrap16s (z : Int) : Int := (z + 32768) % 65536 - 32768

/-- Two's-complement truncation to `int32_t` (the gcc wraparound
behaviour of signed overflow on the target). -/
def wrap32s (z : Int) : Int := (z + 2147483648) % 4294967296 - 2147483648

/-- Conversion of a signed value to `uint32_t` (reduction mod 2^32),
as happens when an `int32_t` is stored into the `databytes` field. -/
def u32ofInt (z : Int) : Nat := (z % 4294967296).toNat

/-- Conversion of a `uint32_t` value to a 32-bit signed `int`, as happens
when `databytes` is passed to the `int len` parameter of `lcd_data`. -/
def i32ofU32 (n : Nat) : Int := if n < 2147483648 then (n : Int) else (n : Int) - 4294967296

/-- One SPI transfer: either a command byte (sent with D/C low) or a data
packet (sent with D/C high). -/
inductive Ev where
  | command (c : Nat) : Ev
  | data (bytes : List Nat) : Ev
  deriving DecidableEq, Repr

/-- Sizes (in bytes) of the data packets of a trace, in order. -/
def chunkSizes (t : List Ev) : List Nat :=
  t.filterMap fun e => match e with
    | Ev.command _ => none
    | Ev.data bs => some bs.length

/-- Total number of data-packet bytes of a trace. -/
def payloadBytes (t : List Ev) : Nat := (chunkSizes t).sum

/-- `lcd_data(data, len)` from ili9341.c: a no-op when `len == 0`,
otherwise one data transfer of the first `len` bytes of the buffer.
A negative `len` (reachable only through `int16_t` overflow upstream)
is modelled as a data transfer carrying no bytes; the real driver would
submit a garbage-length transaction and fail its assertion. -/
def lcd_data (buf : List Nat) (len : Int) : List Ev :=
  if len = 0 then [] else [Ev.data (buf.take len.toNat)]

/-- `WriteLCD` from ili9341.c: sends the command byte unless the opcode is
0 (`SEND_PIXELS`), then the data bytes unless `databytes` is 0.
`databytes` is the `uint32_t` field of `lcd_cmd_t`; passing it to
`lcd_data`'s `int` parameter goes through `i32ofU32`. -/
def WriteLCD (cmd : Nat) (databytes : Nat) (buf : List Nat) : List Ev :=
  (if cmd ≠ 0 then [Ev.command cmd] else []) ++
    (if databytes ≠ 0 then lcd_data buf (i32ofU32 databytes) else [])

/-- `SetCursorPosition` from ili9341.c: swaps each coordinate pair so the
lower value is sent first, then emits the column-address command with the
big-endian x bytes and the page-address command with the big-endian y
bytes.  Arguments are `uint16_t` values (naturals below 2^16). -/
def SetCursorPosition (x0 y0 x1 y1 : Nat) : List Ev :=
  WriteLCD COLUMN_ADDR_SET 4
      [HighByte (if x0 > x1 then x1 else x0), LowByte (if x0 > x1 then x1 else x0),
       HighByte (if x0 > x1 then x0 else x1), LowByte (if x0 > x1 then x0 else x1)] ++
    WriteLCD PAGE_ADDR_SET 4
      [HighByte (if y0 > y1 then y1 else y0), LowByte (if y0 > y1 then y1 else y0),
       HighByte (if y0 > y1 then y0 else y1), LowByte (if y0 > y1 then y0 else y1)]

/-- The transfer buffer as `Fill` leaves it after its fill loop: 128 pixel
pairs `HighByte color, LowByte color` (256 bytes). -/
def pixelBuf (color : Nat) : List Nat :=
  (List.replicate 128 [HighByte color, LowByte color]).flatten

/-- The chunking loop of `Fill`: while more than `MAX_VALUE_SIZE` bytes
remain, send a full buffer and subtract; finally send `bytes_count`
(converted through the `uint32_t` field) as the last chunk. -/
def fillChunks (bytes_count : Int) (buf : List Nat) : List Ev :=
  if bytes_count - 256 > 0 then
    WriteLCD SEND_PIXELS MAX_VALUE_SIZE buf ++ fillChunks (bytes_count - 256) buf
  else
    WriteLCD SEND_PIXELS (u32ofInt bytes_count) buf
termination_by bytes_count.toNat
decreasing_by omega

/-- The `int32_t` byte count computed by `Fill`: the `int16_t` distances
(with their possible wraps) plus one, times two bytes per pixel. -/
def fillBytesCount (x0 y0 x1 y1 : Nat) : Int :=
  wrap32s
    (((if x0 > x1 then wrap16s (-(wrap16s ((x1 : Int) - (x0 : Int))))
        else wrap16s ((x1 : Int) - (x0 : Int))) + 1) *
      ((if y0 > y1 then wrap16s (-(wrap16s ((y1 : Int) - (y0 : Int))))
        else wrap16s ((y1 : Int) - (y0 : Int))) + 1) * 2)

/-- The pixel-stream part of `Fill` (everything after the memory-write
command). -/
def fillStream (x0 y0 x1 y1 color : Nat) : List Ev :=
  fillChunks (fillBytesCount x0 y0 x1 y1) (pixelBuf color)

/-- `Fill` from ili9341.c: window selection, memory-write command, then
the chunked pixel stream. -/
def Fill (x0 y0 x1 y1 color : Nat) : List Ev :=
  SetCursorPosition x0 y0 x1 y1 ++ WriteLCD MEM_WRITE 0 [] ++
    fillStream x0 y0 x1 y1 color

/-- Nat distance between two coordinates (`|x1 - x0|`). -/
def natDist (a b : Nat) : Nat := max a b - min a b

section BasicLemmas

lemma pixelBuf_length (color : Nat) : (pixelBuf color).length = 256 := by
  rw [pixelBuf, List.length_flatten]
  simp [List.map_replicate, List.sum_replicate]

lemma chunkSizes_append (s t : List Ev) :
    chunkSizes (s ++ t) = chunkSizes s ++ chunkSizes t := by
  simp [chunkSizes]

lemma payloadBytes_append (s t : List Ev) :
    payloadBytes (s ++ t) = payloadBytes s + payloadBytes t := by
  simp [payloadBytes, chunkSizes_append]

lemma wrap16s_eq_self {z : Int} (h1 : -32768 ≤ z) (h2 : z ≤ 32767) :
    wrap16s z = z := by
  rw [wrap16s]; omega

lemma wrap32s_eq_self {z : Int} (h1 : -2147483648 ≤ z) (h2 : z ≤ 2147483647) :
    wrap32s z = z := by
  rw [wrap32s]; omega

lemma wrap16s_bounds (z : Int) : -32768 ≤ wrap16s z ∧ wrap16s z ≤ 32767 := by
  rw [wrap16s]; omega

lemma i32ofU32_u32ofInt {z : Int} (h1 : -2147483648 ≤ z) (h2 : z ≤ 2147483647) :
    i32ofU32 (u32ofInt z) = z := by
  rw [u32ofInt, i32ofU32]
  omega

end BasicLemmas

section FillLemmas

/-- Payload of one full 256-byte chunk. -/
lemma writeLCD_full_chunk (buf : List Nat) (h : buf.length = 256) :
    WriteLCD SEND_PIXELS MAX_VALUE_SIZE buf = [Ev.data buf] := by
  rw [WriteLCD, SEND_PIXELS, MAX_VALUE_SIZE]
  rw [show i32ofU32 256 = 256 from by rw [i32ofU32]; omega]
  simp [lcd_data, List.take_of_length_le (le_of_eq h)]

/-- The final chunk of `fillChunks` for a remaining count in `[0, 2^31)`. -/
lemma writeLCD_final_chunk (buf : List Nat) (T : Int) (h0 : 0 ≤ T)
    (hhi : T < 2147483648) :
    WriteLCD SEND_PIXELS (u32ofInt T) buf =
      if T = 0 then [] else [Ev.data (buf.take T.toNat)] := by
  rw [WriteLCD, SEND_PIXELS]
  rw [i32ofU32_u32ofInt (by omega) (by omega)]
  rcases eq_or_ne T 0 with h | h
  · simp [h, u32ofInt]
  · have : u32ofInt T ≠ 0 := by rw [u32ofInt]; omega
    simp [this, h, lcd_data]

/-- Total pixel-stream bytes of the chunking loop equal the (nonnegative)
requested count. -/
lemma fillChunks_payload (buf : List Nat) (hbuf : buf.length = 256) :
    ∀ n : Nat, ∀ T : Int, T.toNat = n → 0 ≤ T → T < 2147483648 →
      payloadBytes (fillChunks T buf) = T.toNat := by
  intro n
  induction n using Nat.strong_induction_on with
  | _ n ih =>
    intro T hn h0 hhi
    rw [fillChunks]
    split
    · next hgt =>
      rw [payloadBytes_append, writeLCD_full_chunk buf hbuf]
      rw [ih (T - 256).toNat (by omega) (T - 256) rfl (by omega) (by omega)]
      simp [payloadBytes, chunkSizes, hbuf]
      omega
    · next hle =>
      rw [writeLCD_final_chunk buf T h0 hhi]
      rcases eq_or_ne T 0 with h | h
      · simp [h, payloadBytes, chunkSizes]
      · rw [if_neg h]
        have hlen : (buf.take T.toNat).length = T.toNat := by
          rw [List.length_take, hbuf]; omega
        simp [payloadBytes, chunkSizes, hlen]

/-- Chunk sizes of the chunking loop: `⌊T/256⌋` full chunks, then a final
chunk of `T mod 256` bytes exactly when the remainder is nonzero. -/
lemma fillChunks_sizes (buf : List Nat) (hbuf : buf.length = 256) :
    ∀ n : Nat, ∀ T : Int, T.toNat = n → 0 < T → T < 2147483648 →
      chunkSizes (fillChunks T buf) =
        List.replicate (T.toNat / 256) 256 ++
          (if T.toNat % 256 = 0 then [] else [T.toNat % 256]) := by
  intro n
  induction n using Nat.strong_induction_on with
  | _ n ih =>
    intro T hn h0 hhi
    rw [fillChunks]
    split
    · next hgt =>
      rw [chunkSizes_append, writeLCD_full_chunk buf hbuf]
      rw [ih (T - 256).toNat (by omega) (T - 256) rfl (by omega) (by omega)]
      have h1 : T.toNat / 256 = (T - 256).toNat / 256 + 1 := by omega
      have h2 : T.toNat % 256 = (T - 256).toNat % 256 := by omega
      rw [h1, h2, List.replicate_succ]
      simp [chunkSizes, hbuf]
    · next hle =>
      have hT : T ≠ 0 := by omega
      rw [writeLCD_final_chunk buf T (by omega) hhi, if_neg hT]
      have hlen : (buf.take T.toNat).length = T.toNat := by
        rw [List.length_take, hbuf]; omega
      have hch : chunkSizes [Ev.data (buf.take T.toNat)] = [T.toNat] := by
        simp [chunkSizes, hlen]
      rw [hch]
      rcases Nat.lt_or_ge T.toNat 256 with h | h
      · have hd : T.toNat / 256 = 0 := by omega
        have hm : T.toNat % 256 = T.toNat := by omega
        rw [hd, hm]
        rw [if_neg (by omega : ¬ T.toNat = 0)]
        simp
      · have he : T.toNat = 256 := by omega
        rw [he]
        simp

/-- A data event emitted by a `SEND_PIXELS` `WriteLCD` call is a prefix of
the buffer that was passed. -/
lemma writeLCD_pixels_data_mem {d : Nat} {buf bs : List Nat}
    (h : Ev.data bs ∈ WriteLCD SEND_PIXELS d buf) : ∃ m, bs = buf.take m := by
  rw [WriteLCD, lcd_data] at h
  simp only [SEND_PIXELS] at h
  simp at h
  exact ⟨(i32ofU32 d).toNat, h.2.2⟩

/-- A prefix of a 256-element buffer is determined by its own length. -/
lemma take_self_length {buf : List Nat} (hbuf : buf.length = 256) (m : Nat) :
    buf.take m = buf.take (buf.take m).length := by
  rw [List.length_take, hbuf]
  rcases Nat.le_total m 256 with hc | hc
  · rw [min_eq_left hc]
  · rw [min_eq_right hc, List.take_of_length_le (by omega : buf.length ≤ m),
      ← hbuf, List.take_length]

/-- Every data packet the chunking loop emits is a prefix of the (once
filled, never modified) transfer buffer. -/
lemma fillChunks_content (buf : List Nat) (hbuf : buf.length = 256) :
    ∀ n : Nat, ∀ T : Int, T.toNat = n →
      ∀ bs, Ev.data bs ∈ fillChunks T buf → bs = buf.take bs.length := by
  intro n
  induction n using Nat.strong_induction_on with
  | _ n ih =>
    intro T hn bs hmem
    rw [fillChunks] at hmem
    split at hmem
    · next hgt =>
      rcases List.mem_append.1 hmem with h | h
      · obtain ⟨m, rfl⟩ := writeLCD_pixels_data_mem h
        exact take_self_length hbuf m
      · exact ih (T - 256).toNat (by omega) (T - 256) rfl bs h
    · next hle =>
      obtain ⟨m, rfl⟩ := writeLCD_pixels_data_mem hmem
      exact take_self_length hbuf m

/-- A data packet's size is among `chunkSizes`. -/
lemma mem_chunkSizes_of_mem {bs : List Nat} {t : List Ev}
    (h : Ev.data bs ∈ t) : bs.length ∈ chunkSizes t := by
  rw [chunkSizes, List.mem_filterMap]
  exact ⟨Ev.data bs, h, rfl⟩

/-- Under the no-overflow hypotheses, the byte count `Fill` computes is
the exact geometric count. -/
lemma fillBytesCount_eq (x0 y0 x1 y1 : Nat)
    (hdx : natDist x0 x1 ≤ 32767) (hdy : natDist y0 y1 ≤ 32767)
    (hT : (natDist x0 x1 + 1) * (natDist y0 y1 + 1) * 2 < 2147483648) :
    fillBytesCount x0 y0 x1 y1 =
      ((natDist x0 x1 + 1) * (natDist y0 y1 + 1) * 2 : Nat) := by
  simp only [natDist] at hdx hdy hT ⊢
  rw [fillBytesCount]
  have hx : (if x0 > x1 then wrap16s (-(wrap16s ((x1 : Int) - (x0 : Int))))
      else wrap16s ((x1 : Int) - (x0 : Int))) = ((max x0 x1 - min x0 x1 : Nat) : Int) := by
    have hi : wrap16s ((x1 : Int) - (x0 : Int)) = (x1 : Int) - (x0 : Int) :=
      wrap16s_eq_self (by omega) (by omega)
    by_cases h : x0 > x1
    · rw [if_pos h, hi, wrap16s_eq_self (by omega) (by omega)]
      omega
    · rw [if_neg h, hi]
      omega
  have hy : (if y0 > y1 then wrap16s (-(wrap16s ((y1 : Int) - (y0 : Int))))
      else wrap16s ((y1 : Int) - (y0 : Int))) = ((max y0 y1 - min y0 y1 : Nat) : Int) := by
    have hi : wrap16s ((y1 : Int) - (y0 : Int)) = (y1 : Int) - (y0 : Int) :=
      wrap16s_eq_self (by omega) (by omega)
    by_cases h : y0 > y1
    · rw [if_pos h, hi, wrap16s_eq_self (by omega) (by omega)]
      omega
    · rw [if_neg h, hi]
      omega
  have h1 : (((max x0 x1 - min x0 x1 : Nat) : Int) + 1) *
        (((max y0 y1 - min y0 y1 : Nat) : Int) + 1) * 2 =
      (((max x0 x1 - min x0 x1 + 1) * (max y0 y1 - min y0 y1 + 1) * 2 : Nat) : Int) := by
    push_cast
    ring
  rw [hx, hy, h1, wrap32s_eq_self
    (le_trans (by norm_num) (Int.natCast_nonneg _))
    (by exact_mod_cast (by omega :
      (max x0 x1 - min x0 x1 + 1) * (max y0 y1 - min y0 y1 + 1) * 2 ≤ 2147483647))]

end FillLemmas

section FillHelpers

/-- A `WriteLCD` call with a nonzero opcode and a 4-byte parameter list. -/
lemma writeLCD_four (c a b d e : Nat) (hc : c ≠ 0) :
    WriteLCD c 4 [a, b, d, e] = [Ev.command c, Ev.data [a, b, d, e]] := by
  have h4 : i32ofU32 4 = 4 := by rw [i32ofU32]; omega
  rw [WriteLCD, lcd_data, h4]
  norm_num [hc]

/-- The memory-write command carries no parameters. -/
lemma writeLCD_memwrite : WriteLCD MEM_WRITE 0 [] = [Ev.command MEM_WRITE] := by
  rw [WriteLCD]
  norm_num [MEM_WRITE]

/-- Total pixel-stream payload of `Fill`, under the no-overflow bounds. -/
lemma fillStream_payload (x0 y0 x1 y1 color : Nat)
    (hdx : natDist x0 x1 ≤ 32767) (hdy : natDist y0 y1 ≤ 32767)
    (hT : (natDist x0 x1 + 1) * (natDist y0 y1 + 1) * 2 < 2147483648) :
    payloadBytes (fillStream x0 y0 x1 y1 color) =
      (natDist x0 x1 + 1) * (natDist y0 y1 + 1) * 2 := by
  rw [fillStream, fillBytesCount_eq x0 y0 x1 y1 hdx hdy hT,
    fillChunks_payload (pixelBuf color) (pixelBuf_length color) _ _ rfl
      (Int.natCast_nonneg _) (by exact_mod_cast hT)]
  exact Int.toNat_natCast _

end FillHelpers

/-- The four LCD orientations, `ili9341_orientation_t` from ili9341.h. -/
inductive ili9341_orientation_t where
  | ILI9341_Portrait_1 : ili9341_orientation_t
  | ILI9341_Portrait_2 : ili9341_orientation_t
  | ILI9341_Landscape_1 : ili9341_orientation_t
  | ILI9341_Landscape_2 : ili9341_orientation_t
  deriving DecidableEq, Repr

/-- `orientation_properties_t` from ili9341.c: the stored width, height and
orientation (the global `lcd_orientation`). -/
structure OrientationProps where
  width : Nat
  height : Nat
  orientation : ili9341_orientation_t
  deriving DecidableEq, Repr

/-- Modelled from the spec: `ILI9341_WIDTH` from the header ili9341.h,
which is not in the repository snapshot.  The spec describes a 320×240
native panel whose Portrait column range is 0–239 (matching the
`column_addr_set` init table in ili9341.c), so the native width is 240. -/
def ILI9341_WIDTH : Nat := 240

/-- Modelled from the spec: `ILI9341_HEIGHT` from the missing header
ili9341.h; the native page range is 0–319, so the native height is 320. -/
def ILI9341_HEIGHT : Nat := 320

/-- Initial value of the global `lcd_orientation` in ili9341.c. -/
def lcd_orientation_init : OrientationProps :=
  ⟨ILI9341_WIDTH, ILI9341_HEIGHT, ili9341_orientation_t.ILI9341_Portrait_1⟩

/-- `ILI9341Rotate` from ili9341.c in state-passing form: the C function
mutates the global `lcd_orientation`; here it maps the previous state to
the new state and the emitted trace.  Every `switch` arm overwrites all
three stored fields and picks the fixed memory-access-control byte, so the
previous state is never read. -/
def ILI9341Rotate (_st : OrientationProps) (o : ili9341_orientation_t) :
    OrientationProps × List Ev :=
  match o with
  | ili9341_orientation_t.ILI9341_Portrait_1 =>
      (⟨ILI9341_WIDTH, ILI9341_HEIGHT, ili9341_orientation_t.ILI9341_Portrait_1⟩,
        WriteLCD MEM_ACC_CTRL 1 [0x48])
  | ili9341_orientation_t.ILI9341_Portrait_2 =>
      (⟨ILI9341_WIDTH, ILI9341_HEIGHT, ili9341_orientation_t.ILI9341_Portrait_2⟩,
        WriteLCD MEM_ACC_CTRL 1 [0x88])
  | ili9341_orientation_t.ILI9341_Landscape_1 =>
      (⟨ILI9341_HEIGHT, ILI9341_WIDTH, ili9341_orientation_t.ILI9341_Landscape_1⟩,
        WriteLCD MEM_ACC_CTRL 1 [0x28])
  | ili9341_orientation_t.ILI9341_Landscape_2 =>
      (⟨ILI9341_HEIGHT, ILI9341_WIDTH, ili9341_orientation_t.ILI9341_Landscape_2⟩,
        WriteLCD MEM_ACC_CTRL 1 [0xE8])

/-- The orientation state after a `Rotate` call (independent of history). -/
def rotateProps (o : ili9341_orientation_t) : OrientationProps :=
  (ILI9341Rotate lcd_orientation_init o).1

/-- `ILI9341Fill` from ili9341.c: fills with far corner
`(width, height)` of the current orientation state. -/
def ILI9341Fill (st : OrientationProps) (color : Nat) : List Ev :=
  Fill 0 0 st.width st.height color

/-- `ILI9341DrawPixel` from ili9341.c: one-pixel window at the caller's
raw coordinates, then the memory-write command with the 2 color bytes. -/
def ILI9341DrawPixel (x y color : Nat) : List Ev :=
  SetCursorPosition x y x y ++
    WriteLCD MEM_WRITE 2 [HighByte color, LowByte color]

/-- Claim C4: for all inputs, `SetCursorPosition` (the `SetWindow` of the
spec) emits the column-address command with big-endian bytes for
`min x0 x1` then `max x0 x1`, and the row-address command with big-endian
bytes for `min y0 y1` then `max y0 y1`, regardless of the corner order
passed by the caller. -/
theorem C4_window_normalization (x0 y0 x1 y1 : Nat) :
    SetCursorPosition x0 y0 x1 y1 =
      [Ev.command COLUMN_ADDR_SET,
       Ev.data [HighByte (min x0 x1), LowByte (min x0 x1),
                HighByte (max x0 x1), LowByte (max x0 x1)],
       Ev.command PAGE_ADDR_SET,
       Ev.data [HighByte (min y0 y1), LowByte (min y0 y1),
                HighByte (max y0 y1), LowByte (max y0 y1)]] := by
  have hminx : (if x0 > x1 then x1 else x0) = min x0 x1 := by
    split <;> omega
  have hmaxx : (if x0 > x1 then x0 else x1) = max x0 x1 := by
    split <;> omega
  have hminy : (if y0 > y1 then y1 else y0) = min y0 y1 := by
    split <;> omega
  have hmaxy : (if y0 > y1 then y0 else y1) = max y0 y1 := by
    split <;> omega
  rw [SetCursorPosition, hminx, hmaxx, hminy, hmaxy,
    writeLCD_four _ _ _ _ _ (by norm_num [COLUMN_ADDR_SET]),
    writeLCD_four _ _ _ _ _ (by norm_num [PAGE_ADDR_SET])]
  rfl

/-- Claim C6: each `ILI9341Rotate` call sets the stored width, height,
orientation and the emitted memory-access-control byte from the target
orientation alone, independent of history; hence rotating through any
sequence of orientations and back to the original restores the original
stored state and byte. -/
theorem C6_rotate_round_trip (st : OrientationProps) (o a b c : ili9341_orientation_t) :
    (ILI9341Rotate (ILI9341Rotate (ILI9341Rotate (ILI9341Rotate
        (ILI9341Rotate st o).1 a).1 b).1 c).1 o).1 = (ILI9341Rotate st o).1
    ∧ ∀ st1 st2 : OrientationProps, ILI9341Rotate st1 o = ILI9341Rotate st2 o := by
  cases o <;> exact ⟨rfl, fun _ _ => rfl⟩

/-- Claim C1 counterexample: at `Fill(0,0,40000,0,7)` the `int16_t`
distance computation wraps (`x_dist` becomes -25536), the `int32_t` byte
count goes negative, and the emitted pixel-stream payload is not
`(|x1-x0|+1)*(|y1-y0|+1)*2 = 80002` bytes. -/
theorem C1_fill_wrap_cex :
    payloadBytes (fillStream 0 0 40000 0 7) ≠
      (natDist 0 40000 + 1) * (natDist 0 0 + 1) * 2 := by
  have hb : fillBytesCount 0 0 40000 0 = -51070 := by
    rw [fillBytesCount]
    norm_num [wrap16s, wrap32s]
  have hu : u32ofInt (-51070) = 4294916226 := by
    rw [u32ofInt]; decide
  have hi : i32ofU32 4294916226 = -51070 := by
    rw [i32ofU32]; norm_num
  rw [fillStream, hb, fillChunks, if_neg (by norm_num : ¬ (-51070 : Int) - 256 > 0),
    hu, WriteLCD, hi, lcd_data]
  norm_num [SEND_PIXELS, payloadBytes, chunkSizes, natDist]
  rw [show ((-51070 : Int)).toNat = 0 by decide, List.take_zero]
  decide

/-- Claim C1 (amended): for every call `Fill(x0,y0,x1,y1,color)` whose
coordinate distances fit `int16_t` (`|x1-x0| ≤ 32767`, `|y1-y0| ≤ 32767`)
and whose byte count fits `int32_t` — in particular every panel-sized
rectangle — the total pixel-stream payload emitted after the memory-write
command equals `(|x1-x0|+1)*(|y1-y0|+1)*2` exactly, and every emitted
chunk is a prefix of the transfer buffer, which is filled once with the
repeated color and reused unmodified (full chunks are the whole buffer).
For larger distances the `int16_t` arithmetic wraps and the invariant
fails (see the counterexample). -/
theorem C1_fill_byte_exact (x0 y0 x1 y1 color : Nat)
    (hdx : natDist x0 x1 ≤ 32767) (hdy : natDist y0 y1 ≤ 32767)
    (hT : (natDist x0 x1 + 1) * (natDist y0 y1 + 1) * 2 < 2147483648) :
    Fill x0 y0 x1 y1 color =
        SetCursorPosition x0 y0 x1 y1 ++ [Ev.command MEM_WRITE] ++
          fillStream x0 y0 x1 y1 color
    ∧ payloadBytes (fillStream x0 y0 x1 y1 color) =
        (natDist x0 x1 + 1) * (natDist y0 y1 + 1) * 2
    ∧ ∀ bs, Ev.data bs ∈ fillStream x0 y0 x1 y1 color →
        bs = (pixelBuf color).take bs.length :=
  ⟨by rw [Fill, writeLCD_memwrite],
   fillStream_payload x0 y0 x1 y1 color hdx hdy hT,
   fun bs h => fillChunks_content (pixelBuf color) (pixelBuf_length color) _ _ rfl bs h⟩

theorem C1_fill_byte_exact_witness :
    payloadBytes (fillStream 0 0 1 1 5) = (natDist 0 1 + 1) * (natDist 0 1 + 1) * 2 :=
  (C1_fill_byte_exact 0 0 1 1 5 (by decide) (by decide) (by decide)).2.1

/-- Claim C2 counterexample: for the 33001×1 rectangle
`Fill(0,0,33000,0,9)` the `int16_t` distance wraps, and the emitted chunk
sizes are not `⌊W*H*2/256⌋` full chunks plus the `mod`-sized final chunk. -/
theorem C2_fill_chunks_cex :
    chunkSizes (fillStream 0 0 33000 0 9) ≠
      List.replicate ((natDist 0 33000 + 1) * (natDist 0 0 + 1) * 2 / 256) 256 ++
        (if (natDist 0 33000 + 1) * (natDist 0 0 + 1) * 2 % 256 = 0 then []
          else [(natDist 0 33000 + 1) * (natDist 0 0 + 1) * 2 % 256]) := by
  have hb : fillBytesCount 0 0 33000 0 = -65070 := by
    rw [fillBytesCount]
    norm_num [wrap16s, wrap32s]
  have hu : u32ofInt (-65070) = 4294902226 := by
    rw [u32ofInt]; decide
  have hi : i32ofU32 4294902226 = -65070 := by
    rw [i32ofU32]; norm_num
  have hL : chunkSizes (fillStream 0 0 33000 0 9) = [0] := by
    rw [fillStream, hb, fillChunks, if_neg (by norm_num : ¬ (-65070 : Int) - 256 > 0),
      hu, WriteLCD, hi, lcd_data]
    norm_num [SEND_PIXELS, chunkSizes]
    rw [show ((-65070 : Int)).toNat = 0 by decide, List.take_zero]
    decide
  intro h
  rw [hL] at h
  have hlen := congrArg List.length h
  norm_num [natDist] at hlen

/-- Claim C2 (amended): for every rectangle of `W×H` pixels whose side
distances fit `int16_t` and whose byte count `W*H*2` fits `int32_t`, the
pixel-stream payload of `Fill` is split into `⌊W*H*2/256⌋` full 256-byte
chunks plus one final chunk of `(W*H*2) mod 256` bytes when the remainder
is nonzero, and when `W*H*2` is divisible by 256 no trailing empty
transfer is produced (a 0-length send is skipped).  (For distances beyond
`int16_t` range the `Fill` arithmetic wraps; see the counterexample.) -/
theorem C2_fill_chunk_structure (x0 y0 x1 y1 color : Nat)
    (hdx : natDist x0 x1 ≤ 32767) (hdy : natDist y0 y1 ≤ 32767)
    (hT : (natDist x0 x1 + 1) * (natDist y0 y1 + 1) * 2 < 2147483648) :
    chunkSizes (fillStream x0 y0 x1 y1 color) =
      List.replicate ((natDist x0 x1 + 1) * (natDist y0 y1 + 1) * 2 / 256) 256 ++
        (if (natDist x0 x1 + 1) * (natDist y0 y1 + 1) * 2 % 256 = 0 then []
          else [(natDist x0 x1 + 1) * (natDist y0 y1 + 1) * 2 % 256])
    ∧ Ev.data [] ∉ fillStream x0 y0 x1 y1 color := by
  have key : chunkSizes (fillStream x0 y0 x1 y1 color) =
      List.replicate ((natDist x0 x1 + 1) * (natDist y0 y1 + 1) * 2 / 256) 256 ++
        (if (natDist x0 x1 + 1) * (natDist y0 y1 + 1) * 2 % 256 = 0 then []
          else [(natDist x0 x1 + 1) * (natDist y0 y1 + 1) * 2 % 256]) := by
    rw [fillStream, fillBytesCount_eq x0 y0 x1 y1 hdx hdy hT,
      fillChunks_sizes (pixelBuf color) (pixelBuf_length color) _ _ rfl
        (by exact_mod_cast (by positivity :
          0 < (natDist x0 x1 + 1) * (natDist y0 y1 + 1) * 2))
        (by exact_mod_cast hT)]
    simp only [Int.toNat_natCast]
  refine ⟨key, fun hmem => ?_⟩
  have h0 := mem_chunkSizes_of_mem hmem
  rw [key] at h0
  simp only [List.mem_append, List.mem_replicate, List.length_nil] at h0
  rcases h0 with ⟨_, h⟩ | h
  · omega
  · split at h
    · simp at h
    · simp only [List.mem_singleton] at h
      omega

theorem C2_fill_chunk_structure_witness :
    chunkSizes (fillStream 0 0 15 15 3) =
      List.replicate ((natDist 0 15 + 1) * (natDist 0 15 + 1) * 2 / 256) 256 ++
        (if (natDist 0 15 + 1) * (natDist 0 15 + 1) * 2 % 256 = 0 then []
          else [(natDist 0 15 + 1) * (natDist 0 15 + 1) * 2 % 256]) :=
  (C2_fill_chunk_structure 0 0 15 15 3 (by decide) (by decide) (by decide)).1

/-- Claim C9: for every orientation, `ILI9341Fill(color)` calls `Fill`
with inclusive far corner `(width, height)` instead of
`(width-1, height-1)`: the window command's far corner is one row and one
column beyond the last addressable pixel, and the pixel stream carries
`(width+1)*(height+1)*2` bytes. -/
theorem C9_fill_off_by_one (o : ili9341_orientation_t) (color : Nat) :
    ILI9341Fill (rotateProps o) color =
      SetCursorPosition 0 0 (rotateProps o).width (rotateProps o).height ++
        [Ev.command MEM_WRITE] ++
        fillStream 0 0 (rotateProps o).width (rotateProps o).height color
    ∧ payloadBytes (fillStream 0 0 (rotateProps o).width (rotateProps o).height color) =
        ((rotateProps o).width + 1) * ((rotateProps o).height + 1) * 2 := by
  constructor
  · rw [ILI9341Fill, Fill, writeLCD_memwrite]
  · cases o
    case ILI9341_Portrait_1 =>
      have h := fillStream_payload 0 0 240 320 color (by decide) (by decide) (by decide)
      norm_num [natDist] at h
      norm_num [rotateProps, ILI9341Rotate, lcd_orientation_init,
        ILI9341_WIDTH, ILI9341_HEIGHT]
      exact h
    case ILI9341_Portrait_2 =>
      have h := fillStream_payload 0 0 240 320 color (by decide) (by decide) (by decide)
      norm_num [natDist] at h
      norm_num [rotateProps, ILI9341Rotate, lcd_orientation_init,
        ILI9341_WIDTH, ILI9341_HEIGHT]
      exact h
    case ILI9341_Landscape_1 =>
      have h := fillStream_payload 0 0 320 240 color (by decide) (by decide) (by decide)
      norm_num [natDist] at h
      norm_num [rotateProps, ILI9341Rotate, lcd_orientation_init,
        ILI9341_WIDTH, ILI9341_HEIGHT]
      exact h
    case ILI9341_Landscape_2 =>
      have h := fillStream_payload 0 0 320 240 color (by decide) (by decide) (by decide)
      norm_num [natDist] at h
      norm_num [rotateProps, ILI9341Rotate, lcd_orientation_init,
        ILI9341_WIDTH, ILI9341_HEIGHT]
      exact h

/-- One coordinate clamp of `ILI9341DrawLine`'s overflow check:
`if (v >= limit) v = limit - 1`. -/
def clampCoord (limit v : Nat) : Nat := if v ≥ limit then limit - 1 else v

/-- The `int16_t` distance with direction fix that `ILI9341DrawLine` (and
`Fill`) compute: `d = b - a; if (a > b) d = -d;`. -/
def lineDist (a b : Nat) : Int :=
  if a > b then wrap16s (-(wrap16s ((b : Int) - (a : Int))))
  else wrap16s ((b : Int) - (a : Int))

/-- Pixel-level semantics of `Fill` for the horizontal/vertical branch of
`ILI9341DrawLine`: the window rectangle between the two corners is
painted (the byte-level behaviour of `Fill` is verified separately). -/
def rectPx (x0 y0 x1 y1 : Nat) : List (Int × Int) :=
  (List.range (max x0 x1 + 1 - min x0 x1)).flatMap fun i =>
    (List.range (max y0 y1 + 1 - min y0 y1)).map fun j =>
      (((min x0 x1 + i : Nat) : Int), ((min y0 y1 + j : Nat) : Int))

/-- Direction-consistency invariant of one Bresenham step: stepping the
moving coordinate toward its target preserves the order relation, given
the loop has not reached the target on that axis. -/
lemma growInv {g a b : Int} (hg : (g = 1 ∧ a ≤ b) ∨ (g = -1 ∧ b ≤ a))
    (hne : a ≠ b) (c : Prop) [Decidable c] :
    (g = 1 ∧ (if c then a + g else a) ≤ b) ∨
      (g = -1 ∧ b ≤ (if c then a + g else a)) := by
  rcases hg with ⟨h1, h2⟩ | ⟨h1, h2⟩
  · exact Or.inl ⟨h1, by subst h1; split <;> omega⟩
  · exact Or.inr ⟨h1, by subst h1; split <;> omega⟩

/-- The grow direction chosen by `ILI9341DrawLine` points from start to
end on each axis. -/
lemma growDir (a b : Nat) :
    ((if a > b then (-1 : Int) else 1) = 1 ∧ (a : Int) ≤ (b : Int)) ∨
      ((if a > b then (-1 : Int) else 1) = -1 ∧ (b : Int) ≤ (a : Int)) := by
  by_cases hc : a > b
  · rw [if_pos hc]
    right
    omega
  · rw [if_neg hc]
    left
    omega

/-- The Bresenham loop of `ILI9341DrawLine` (diagonal branch): draw the
start point, stop once either axis has reached its endpoint, otherwise
perform the two-conditional error step.  The direction-consistency
hypotheses record the invariant that makes the C loop terminate; the loop
body is the literal translation of the source. -/
def bresLoop (x1 y1 x_dist y_dist x_grow y_grow : Int)
    (hx : 0 < x_dist) (hy : 0 < y_dist)
    (x0 y0 error : Int)
    (hgx : (x_grow = 1 ∧ x0 ≤ x1) ∨ (x_grow = -1 ∧ x1 ≤ x0))
    (hgy : (y_grow = 1 ∧ y0 ≤ y1) ∨ (y_grow = -1 ∧ y1 ≤ y0)) :
    List (Int × Int) :=
  (x0, y0) ::
    (if h : x0 = x1 ∨ y0 = y1 then []
     else
       bresLoop x1 y1 x_dist y_dist x_grow y_grow hx hy
         (if error > -x_dist then x0 + x_grow else x0)
         (if error < y_dist then y0 + y_grow else y0)
         ((if error > -x_dist then error - y_dist else error) +
           (if error < y_dist then x_dist else 0))
         (growInv hgx (fun he => h (Or.inl he)) _)
         (growInv hgy (fun he => h (Or.inr he)) _))
termination_by (x1 - x0).natAbs + (y1 - y0).natAbs
decreasing_by
  rcases hgx with ⟨hg1, hle1⟩ | ⟨hg1, hle1⟩ <;>
    rcases hgy with ⟨hg2, hle2⟩ | ⟨hg2, hle2⟩ <;>
      subst hg1 <;> subst hg2 <;> split_ifs <;> omega

/-- `ILI9341DrawLine` after coordinate clamping, at the pixel level: the
horizontal/vertical branch delegates to `Fill` (painting the window
rectangle), the diagonal branch runs the Bresenham loop.  The final
`else []` arm is unreachable for panel-sized dimensions: it would require
an `int16_t`-wrapped (negative) distance, i.e. a clamped coordinate
distance above 32767. -/
def lineCore (x0 y0 x1 y1 : Nat) : List (Int × Int) :=
  if lineDist x0 x1 = 0 ∨ lineDist y0 y1 = 0 then
    rectPx x0 y0 x1 y1
  else if hp : 0 < lineDist x0 x1 ∧ 0 < lineDist y0 y1 then
    bresLoop (x1 : Int) (y1 : Int) (lineDist x0 x1) (lineDist y0 y1)
      (if x0 > x1 then -1 else 1) (if y0 > y1 then -1 else 1)
      hp.1 hp.2 (x0 : Int) (y0 : Int)
      (if lineDist x0 x1 > lineDist y0 y1 then lineDist x0 x1 / 2
        else lineDist y0 y1 / 2)
      (growDir x0 x1) (growDir y0 y1)
  else []

/-- `ILI9341DrawLine` from ili9341.c at the pixel level: clamp each
coordinate against the current orientation's dimensions, then run
`lineCore`.  Each returned pair is one `ILI9341DrawPixel` call (or one
pixel of the delegated `Fill` rectangle). -/
def ILI9341DrawLinePx (st : OrientationProps) (x0 y0 x1 y1 : Nat) :
    List (Int × Int) :=
  lineCore (clampCoord st.width x0) (clampCoord st.height y0)
    (clampCoord st.width x1) (clampCoord st.height y1)

section LineLemmas

/-- Within `int16_t` range the computed line distance is the exact
coordinate distance. -/
lemma lineDist_eq (a b : Nat) (h : natDist a b ≤ 32767) :
    lineDist a b = (natDist a b : Int) := by
  rw [lineDist, natDist]
  rw [natDist] at h
  have hi : wrap16s ((b : Int) - (a : Int)) = (b : Int) - (a : Int) :=
    wrap16s_eq_self (by omega) (by omega)
  by_cases hc : a > b
  · rw [if_pos hc, hi, wrap16s_eq_self (by omega) (by omega)]
    omega
  · rw [if_neg hc, hi]
    omega

/-- In-range coordinates pass the clamp unchanged. -/
lemma clampCoord_id (limit v : Nat) (h : v < limit) : clampCoord limit v = v := by
  rw [clampCoord, if_neg (by omega)]

/-- Clamping is the same as first pulling the coordinate to
`limit - 1`. -/
lemma clampCoord_min (limit v : Nat) (hw : 1 ≤ limit) :
    clampCoord limit (min v (limit - 1)) = clampCoord limit v := by
  rw [clampCoord, clampCoord]
  split_ifs <;> omega

/-- Membership in the painted rectangle. -/
lemma rectPx_mem (x0 y0 x1 y1 : Nat) (p q : Int) :
    (p, q) ∈ rectPx x0 y0 x1 y1 ↔
      ((min x0 x1 : Nat) : Int) ≤ p ∧ p ≤ ((max x0 x1 : Nat) : Int) ∧
        ((min y0 y1 : Nat) : Int) ≤ q ∧ q ≤ ((max y0 y1 : Nat) : Int) := by
  rw [rectPx]
  simp only [List.mem_flatMap, List.mem_map, List.mem_range, Prod.mk.injEq]
  constructor
  · rintro ⟨i, hi, j, hj, he1, he2⟩
    omega
  · rintro ⟨h1, h2, h3, h4⟩
    refine ⟨(p - (min x0 x1 : Nat)).toNat, by omega,
      (q - (min y0 y1 : Nat)).toNat, by omega, by omega, by omega⟩

/-- The Bresenham loop always draws its start point first. -/
lemma bresLoop_head (x1 y1 x_dist y_dist x_grow y_grow : Int)
    (hx : 0 < x_dist) (hy : 0 < y_dist) (x0 y0 error : Int) (hgx hgy) :
    (x0, y0) ∈ bresLoop x1 y1 x_dist y_dist x_grow y_grow hx hy x0 y0 error hgx hgy := by
  rw [bresLoop]
  exact List.mem_cons_self _ _

/-- The Bresenham loop always draws a pixel matching the endpoint on at
least one axis (the pixel drawn in its final iteration). -/
lemma bresLoop_hits (x1 y1 x_dist y_dist x_grow y_grow : Int)
    (hx : 0 < x_dist) (hy : 0 < y_dist) :
    ∀ n : Nat, ∀ x0 y0 error : Int, ∀ hgx hgy,
      (x1 - x0).natAbs + (y1 - y0).natAbs = n →
      ∃ p ∈ bresLoop x1 y1 x_dist y_dist x_grow y_grow hx hy x0 y0 error hgx hgy,
        p.1 = x1 ∨ p.2 = y1 := by
  intro n
  induction n using Nat.strong_induction_on with
  | _ n ih =>
    intro x0 y0 error hgx hgy hn
    rw [bresLoop]
    by_cases h : x0 = x1 ∨ y0 = y1
    · refine ⟨(x0, y0), List.mem_cons_self _ _, ?_⟩
      rcases h with h | h
      · exact Or.inl h
      · exact Or.inr h
    · rw [dif_neg h]
      have hdec : (x1 - (if error > -x_dist then x0 + x_grow else x0)).natAbs +
          (y1 - (if error < y_dist then y0 + y_grow else y0)).natAbs < n := by
        rcases hgx with ⟨hg1, hle1⟩ | ⟨hg1, hle1⟩ <;>
          rcases hgy with ⟨hg2, hle2⟩ | ⟨hg2, hle2⟩ <;>
            subst hg1 <;> subst hg2 <;> split_ifs <;> omega
      obtain ⟨p, hp, hprop⟩ := ih _ hdec _ _ _
        (growInv hgx (fun he => h (Or.inl he)) _)
        (growInv hgy (fun he => h (Or.inr he)) _) rfl
      exact ⟨p, List.mem_cons_of_mem _ hp, hprop⟩

/-- A `WriteLCD` call with a nonzero opcode and a 2-byte parameter list. -/
lemma writeLCD_two (c a b : Nat) (hc : c ≠ 0) :
    WriteLCD c 2 [a, b] = [Ev.command c, Ev.data [a, b]] := by
  have h2 : i32ofU32 2 = 2 := by rw [i32ofU32]; omega
  rw [WriteLCD, lcd_data, h2]
  norm_num [hc]

end LineLemmas

/-- Claim C8: `ILI9341DrawLine` silently clamps out-of-bounds coordinates
to the nearest valid edge (a coordinate at or beyond the dimension is
pulled to `dimension - 1` before rasterization, so drawing with raw
coordinates equals drawing with the pre-clamped ones), whereas
`ILI9341DrawPixel` and `SetCursorPosition` pass the caller's coordinates
through unchanged into the window bytes (only reordering the pair); none
of them has an error channel — they always produce a trace. -/
theorem C8_clamping_behavior :
    (∀ (o : ili9341_orientation_t) (x0 y0 x1 y1 : Nat),
      ILI9341DrawLinePx (rotateProps o) x0 y0 x1 y1 =
        ILI9341DrawLinePx (rotateProps o)
          (min x0 ((rotateProps o).width - 1)) (min y0 ((rotateProps o).height - 1))
          (min x1 ((rotateProps o).width - 1)) (min y1 ((rotateProps o).height - 1)))
    ∧ (∀ x y color : Nat, ILI9341DrawPixel x y color =
        [Ev.command COLUMN_ADDR_SET,
         Ev.data [HighByte x, LowByte x, HighByte x, LowByte x],
         Ev.command PAGE_ADDR_SET,
         Ev.data [HighByte y, LowByte y, HighByte y, LowByte y],
         Ev.command MEM_WRITE, Ev.data [HighByte color, LowByte color]])
    ∧ (∀ x0 y0 x1 y1 : Nat, x0 ≤ x1 → y0 ≤ y1 →
        SetCursorPosition x0 y0 x1 y1 =
          [Ev.command COLUMN_ADDR_SET,
           Ev.data [HighByte x0, LowByte x0, HighByte x1, LowByte x1],
           Ev.command PAGE_ADDR_SET,
           Ev.data [HighByte y0, LowByte y0, HighByte y1, LowByte y1]]) := by
  refine ⟨?_, ?_, ?_⟩
  · intro o x0 y0 x1 y1
    have hw : 1 ≤ (rotateProps o).width := by cases o <;> decide
    have hh : 1 ≤ (rotateProps o).height := by cases o <;> decide
    rw [ILI9341DrawLinePx, ILI9341DrawLinePx,
      clampCoord_min _ x0 hw, clampCoord_min _ x1 hw,
      clampCoord_min _ y0 hh, clampCoord_min _ y1 hh]
  · intro x y color
    rw [ILI9341DrawPixel, SetCursorPosition]
    simp only [ite_self]
    rw [writeLCD_four _ _ _ _ _ (by norm_num [COLUMN_ADDR_SET]),
      writeLCD_four _ _ _ _ _ (by norm_num [PAGE_ADDR_SET]),
      writeLCD_two _ _ _ (by norm_num [MEM_WRITE])]
    rfl
  · intro x0 y0 x1 y1 hx hy
    rw [SetCursorPosition,
      if_neg (by omega : ¬ x0 > x1), if_neg (by omega : ¬ x0 > x1),
      if_neg (by omega : ¬ y0 > y1), if_neg (by omega : ¬ y0 > y1),
      writeLCD_four _ _ _ _ _ (by norm_num [COLUMN_ADDR_SET]),
      writeLCD_four _ _ _ _ _ (by norm_num [PAGE_ADDR_SET])]
    rfl

/-- Claim C3 counterexample: for the in-bounds endpoints (0,0) and (3,1)
in Portrait_1, the Bresenham loop stops when it reaches row `y1 = 1` at
column 2 (`x0 == x1 || y0 == y1`), so the endpoint (3,1) is never drawn:
the drawn pixels are (0,0), (1,0), (2,1). -/
theorem C3_line_endpoint_cex :
    ((3 : Int), (1 : Int)) ∉
      ILI9341DrawLinePx (rotateProps ili9341_orientation_t.ILI9341_Portrait_1) 0 0 3 1 := by
  have hstep : ∀ hx hy hgx hgy,
      bresLoop 3 1 3 1 1 1 hx hy 0 0 1 hgx hgy = [(0, 0), (1, 0), (2, 1)] := by
    intro hx hy hgx hgy
    rw [bresLoop, dif_neg (by norm_num)]
    norm_num
    rw [bresLoop, dif_neg (by norm_num)]
    norm_num
    rw [bresLoop, dif_pos (by norm_num : (2 : Int) = 3 ∨ (1 : Int) = 1)]
  have e1 : lineDist 0 3 = 3 := by rw [lineDist]; norm_num [wrap16s]
  have e2 : lineDist 0 1 = 1 := by rw [lineDist]; norm_num [wrap16s]
  have hcl : ILI9341DrawLinePx (rotateProps ili9341_orientation_t.ILI9341_Portrait_1) 0 0 3 1 =
      lineCore 0 0 3 1 := by
    rw [ILI9341DrawLinePx]
    norm_num [rotateProps, ILI9341Rotate, lcd_orientation_init, ILI9341_WIDTH,
      ILI9341_HEIGHT, clampCoord]
  rw [hcl, lineCore, if_neg (by rw [e1, e2]; norm_num),
    dif_pos (⟨by rw [e1]; norm_num, by rw [e2]; norm_num⟩ :
      0 < lineDist 0 3 ∧ 0 < lineDist 0 1)]
  simp only [e1, e2]
  norm_num
  rw [hstep]
  decide

/-- Claim C3 (amended): for in-bounds endpoints, the pixels drawn by
`ILI9341DrawLine` always include the start point (x0,y0); they include
the endpoint (x1,y1) whenever the line is horizontal or vertical (the
`Fill` branch); in the diagonal branch some drawn pixel matches the
endpoint on at least one axis, but (x1,y1) itself can be missed because
the loop stops as soon as either axis reaches its endpoint (see the
counterexample). -/
theorem C3_line_endpoints (o : ili9341_orientation_t) (x0 y0 x1 y1 : Nat)
    (hx0 : x0 < (rotateProps o).width) (hy0 : y0 < (rotateProps o).height)
    (hx1 : x1 < (rotateProps o).width) (hy1 : y1 < (rotateProps o).height) :
    ((x0 : Int), (y0 : Int)) ∈ ILI9341DrawLinePx (rotateProps o) x0 y0 x1 y1
    ∧ ((x0 = x1 ∨ y0 = y1) →
        ((x1 : Int), (y1 : Int)) ∈ ILI9341DrawLinePx (rotateProps o) x0 y0 x1 y1)
    ∧ ∃ p ∈ ILI9341DrawLinePx (rotateProps o) x0 y0 x1 y1,
        p.1 = (x1 : Int) ∨ p.2 = (y1 : Int) := by
  have hw : (rotateProps o).width ≤ 320 := by cases o <;> decide
  have hh : (rotateProps o).height ≤ 320 := by cases o <;> decide
  have hdx : natDist x0 x1 ≤ 32767 := by rw [natDist]; omega
  have hdy : natDist y0 y1 ≤ 32767 := by rw [natDist]; omega
  have ex : lineDist x0 x1 = (natDist x0 x1 : Int) := lineDist_eq _ _ hdx
  have ey : lineDist y0 y1 = (natDist y0 y1 : Int) := lineDist_eq _ _ hdy
  have hcl : ILI9341DrawLinePx (rotateProps o) x0 y0 x1 y1 = lineCore x0 y0 x1 y1 := by
    rw [ILI9341DrawLinePx, clampCoord_id _ _ hx0, clampCoord_id _ _ hy0,
      clampCoord_id _ _ hx1, clampCoord_id _ _ hy1]
  rw [hcl]
  by_cases hz : lineDist x0 x1 = 0 ∨ lineDist y0 y1 = 0
  · rw [lineCore, if_pos hz]
    refine ⟨?_, fun _ => ?_, ⟨((x1 : Int), (y1 : Int)), ?_, Or.inl rfl⟩⟩
    · rw [rectPx_mem]
      omega
    · rw [rectPx_mem]
      omega
    · rw [rectPx_mem]
      omega
  · have hp : 0 < lineDist x0 x1 ∧ 0 < lineDist y0 y1 := by
      have h1 := (not_or.1 hz).1
      have h2 := (not_or.1 hz).2
      rw [ex] at h1 ⊢
      rw [ey] at h2 ⊢
      omega
    rw [lineCore, if_neg hz, dif_pos hp]
    refine ⟨bresLoop_head _ _ _ _ _ _ _ _ _ _ _ _ _, fun he => ?_, ?_⟩
    · exfalso
      rcases he with he | he
      · exact (not_or.1 hz).1 (by rw [ex, he, natDist]; simp)
      · exact (not_or.1 hz).2 (by rw [ey, he, natDist]; simp)
    · exact bresLoop_hits _ _ _ _ _ _ hp.1 hp.2 _ _ _ _ _ _ rfl

theorem C3_line_endpoints_witness :
    ((0 : Int), (0 : Int)) ∈
        ILI9341DrawLinePx (rotateProps ili9341_orientation_t.ILI9341_Portrait_1) 0 0 3 1
    ∧ ∃ p ∈ ILI9341DrawLinePx (rotateProps ili9341_orientation_t.ILI9341_Portrait_1) 0 0 3 1,
        p.1 = (3 : Int) ∨ p.2 = (1 : Int) :=
  ⟨(C3_line_endpoints ili9341_orientation_t.ILI9341_Portrait_1 0 0 3 1
      (by decide) (by decide) (by decide) (by decide)).1,
   (C3_line_endpoints ili9341_orientation_t.ILI9341_Portrait_1 0 0 3 1
      (by decide) (by decide) (by decide) (by decide)).2.2⟩

/-- Conversion of a signed value to `uint16_t` (reduction mod 2^16), as
happens when the window arithmetic of `ILI9341DrawChar` is passed to the
`uint16_t` parameters of `SetCursorPosition`. -/
def u16ofInt (z : Int) : Nat := (z % 65536).toNat

/-- Modelled from the spec: `Font_t` from the missing font header — glyph
width and height plus the bitmap rows, one 16-bit mask per glyph row,
indexed by `(character - ' ') * FontHeight + row`.  `data` is a total
function over `Int` so that the C pointer indexing, including
out-of-bounds offsets, has a value to read. -/
structure Font_t where
  FontWidth : Nat
  FontHeight : Nat
  data : Int → Nat

/-- The font-bitmap row index `(data - ' ') * font->FontHeight + i`
computed by `ILI9341DrawChar` (in `int` arithmetic, so it can be
negative). -/
def charRowIndex (ch FH i : Nat) : Int := ((ch : Int) - 32) * (FH : Int) + (i : Int)

/-- The loop state of `ILI9341DrawChar`: flush counter `k`, remaining
`bytes_count`, the 256-byte static `pixel` buffer (as a function from
offsets to bytes), and the trace emitted so far. -/
structure CharAcc where
  k : Nat
  bytes_count : Int
  buf : Nat → Nat
  out : List Ev

/-- The `pixel` buffer materialized as the 256-byte list that a transfer
sends. -/
def bufList (f : Nat → Nat) : List Nat := (List.range 256).map f

/-- The buffer offset `2*j + i*FontWidth*2 - k*MAX_VALUE_SIZE` of
`ILI9341DrawChar` (`int` arithmetic). -/
def charOff (FW i j k : Nat) : Int :=
  wrap32s (((2 * j + i * FW * 2 : Nat) : Int) - ((k * 256 : Nat) : Int))

/-- The flush test `(2*j + i*FontWidth*2 - k*MAX_VALUE_SIZE + 1) >
MAX_VALUE_SIZE` of `ILI9341DrawChar`. -/
def charFlushCond (FW i j k : Nat) : Bool :=
  wrap32s (((2 * j + i * FW * 2 : Nat) : Int) - ((k * 256 : Nat) : Int) + 1) > 256

/-- Writing the two color bytes of glyph position (i, j) into the
buffer: foreground if bit `15 - j` of the row mask is set, else
background. -/
def charWrite (FW char_row fg bg i j : Nat) (acc : CharAcc) : CharAcc :=
  { acc with buf := fun p =>
      if p = (charOff FW i j acc.k).toNat then
        (if char_row &&& (0x8000 >>> j) ≠ 0 then HighByte fg else HighByte bg)
      else if p = (charOff FW i j acc.k).toNat + 1 then
        (if char_row &&& (0x8000 >>> j) ≠ 0 then LowByte fg else LowByte bg)
      else acc.buf p }

/-- One inner-loop iteration of `ILI9341DrawChar`: flush a full 256-byte
chunk when the write position would exceed the buffer, then write the two
bytes of the current glyph column. -/
def charInner (FW char_row fg bg i : Nat) (acc : CharAcc) (j : Nat) : CharAcc :=
  if charFlushCond FW i j acc.k then
    charWrite FW char_row fg bg i j
      { k := acc.k + 1, bytes_count := acc.bytes_count - 256, buf := acc.buf,
        out := acc.out ++ WriteLCD SEND_PIXELS MAX_VALUE_SIZE (bufList acc.buf) }
  else
    charWrite FW char_row fg bg i j acc

/-- The two nested glyph loops of `ILI9341DrawChar` (rows then columns),
reading each row's 16-bit mask at `charRowIndex`. -/
def charLoop (FW FH : Nat) (fdata : Int → Nat) (ch fg bg : Nat) (acc0 : CharAcc) :
    CharAcc :=
  (List.range FH).foldl (fun acc i =>
    (List.range FW).foldl
      (charInner FW (fdata (charRowIndex ch FH i)) fg bg i) acc) acc0

/-- The pixel-stream part of `ILI9341DrawChar` (everything after the
memory-write command): the chunks flushed by the glyph loops followed by
the final `bytes_count`-byte chunk.  `pixel0` is the prior content of the
static `pixel` buffer (it persists across calls). -/
def drawCharStream (font : Font_t) (ch fg bg : Nat) (pixel0 : Nat → Nat) : List Ev :=
  (charLoop font.FontWidth font.FontHeight font.data ch fg bg
      ⟨0, wrap32s (((font.FontHeight * font.FontWidth * 2 : Nat) : Int)), pixel0, []⟩).out ++
    WriteLCD SEND_PIXELS
      (u32ofInt (charLoop font.FontWidth font.FontHeight font.data ch fg bg
        ⟨0, wrap32s (((font.FontHeight * font.FontWidth * 2 : Nat) : Int)), pixel0, []⟩).bytes_count)
      (bufList (charLoop font.FontWidth font.FontHeight font.data ch fg bg
        ⟨0, wrap32s (((font.FontHeight * font.FontWidth * 2 : Nat) : Int)), pixel0, []⟩).buf)

/-- `ILI9341DrawChar` from ili9341.c: wrap to a new line when the glyph
does not fit the current width, set the glyph window, memory-write, then
the chunked glyph pixel stream. -/
def ILI9341DrawChar (st : OrientationProps) (x y ch : Nat) (font : Font_t)
    (fg bg : Nat) (pixel0 : Nat → Nat) : List Ev :=
  SetCursorPosition
    (u16ofInt ((if x + font.FontWidth > st.width then 0 else x : Nat) : Int))
    (u16ofInt ((if x + font.FontWidth > st.width then y + font.FontHeight else y : Nat) : Int))
    (u16ofInt (((if x + font.FontWidth > st.width then 0 else x : Nat) : Int) +
      (font.FontWidth : Int) - 1))
    (u16ofInt (((if x + font.FontWidth > st.width then y + font.FontHeight else y : Nat) : Int) +
      (font.FontHeight : Int) - 1)) ++
  WriteLCD MEM_WRITE 0 [] ++ drawCharStream font ch fg bg pixel0

/-- Chunk-size skeleton of one inner-loop iteration: the flush decision
and chunk sizes depend only on the indices and `k`, not on the buffer or
color contents. -/
def charInnerSk (FW i : Nat) (s : Nat × Int × List Nat) (j : Nat) : Nat × Int × List Nat :=
  if charFlushCond FW i j s.1 then (s.1 + 1, s.2.1 - 256, s.2.2 ++ [256]) else s

/-- The (counter, remaining bytes, chunk sizes) correspondence between
the glyph loop and its skeleton. -/
def charRel (acc : CharAcc) (s : Nat × Int × List Nat) : Prop :=
  acc.k = s.1 ∧ acc.bytes_count = s.2.1 ∧ chunkSizes acc.out = s.2.2

section CharLemmas

lemma bufList_length (f : Nat → Nat) : (bufList f).length = 256 := by
  simp [bufList]

lemma foldl_rel {α β ι : Type} (R : α → β → Prop) (f : α → ι → α) (g : β → ι → β)
    (hstep : ∀ a b i, R a b → R (f a i) (g b i)) :
    ∀ (l : List ι) (a : α) (b : β), R a b → R (l.foldl f a) (l.foldl g b) := by
  intro l
  induction l with
  | nil => intro a b h; exact h
  | cons x xs ih =>
    intro a b h
    exact ih _ _ (hstep _ _ _ h)

lemma charRel_step (FW char_row fg bg i : Nat) :
    ∀ acc s j, charRel acc s →
      charRel (charInner FW char_row fg bg i acc j) (charInnerSk FW i s j) := by
  rintro acc s j ⟨h1, h2, h3⟩
  rw [charInner, charInnerSk, ← h1]
  by_cases hc : charFlushCond FW i j acc.k = true
  · rw [if_pos hc, if_pos hc]
    refine ⟨rfl, ?_, ?_⟩
    · show acc.bytes_count - 256 = s.2.1 - 256
      rw [h2]
    · show chunkSizes (acc.out ++ WriteLCD SEND_PIXELS MAX_VALUE_SIZE (bufList acc.buf)) =
        s.2.2 ++ [256]
      rw [chunkSizes_append, h3, writeLCD_full_chunk _ (bufList_length _)]
      simp [chunkSizes, bufList_length]
  · rw [if_neg hc, if_neg hc]
    exact ⟨h1, h2, h3⟩

lemma charLoop_rel (FW FH : Nat) (fdata : Int → Nat) (ch fg bg : Nat)
    (acc0 : CharAcc) (s0 : Nat × Int × List Nat) (h : charRel acc0 s0) :
    charRel (charLoop FW FH fdata ch fg bg acc0)
      ((List.range FH).foldl (fun s i => (List.range FW).foldl (charInnerSk FW i) s) s0) := by
  rw [charLoop]
  refine foldl_rel charRel _ _ ?_ _ _ _ h
  intro a b i hab
  exact foldl_rel charRel _ _ (charRel_step FW _ fg bg i) _ a b hab

lemma chunkSizes_window (x0 y0 x1 y1 : Nat) :
    chunkSizes (SetCursorPosition x0 y0 x1 y1) = [4, 4] := by
  rw [SetCursorPosition,
    writeLCD_four _ _ _ _ _ (by norm_num [COLUMN_ADDR_SET]),
    writeLCD_four _ _ _ _ _ (by norm_num [PAGE_ADDR_SET]), chunkSizes_append]
  simp [chunkSizes]

set_option maxRecDepth 4000 in
/-- The chunk-size skeleton of the 16-wide, 26-high glyph loop, row by
row: flushes happen while entering rows 8, 16 and 24, leaving 64
remaining bytes. -/
lemma charSk_16_26 : (List.range 26).foldl
    (fun s i => (List.range 16).foldl (charInnerSk 16 i) s)
    ((0 : Nat), (832 : Int), ([] : List Nat)) = ((3 : Nat), (64 : Int), ([256, 256, 256] : List Nat)) := by
  have h0 : (List.range 0).foldl (fun s i => (List.range 16).foldl (charInnerSk 16 i) s) ((0 : Nat), (832 : Int), ([] : List Nat)) = ((0 : Nat), (832 : Int), ([] : List Nat)) := rfl
  have h1 : (List.range 1).foldl (fun s i => (List.range 16).foldl (charInnerSk 16 i) s) ((0 : Nat), (832 : Int), ([] : List Nat)) = ((0 : Nat), (832 : Int), ([] : List Nat)) := by
    rw [show List.range 1 = List.range 0 ++ [0] from List.range_succ 0, List.foldl_append, h0]
    decide
  have h2 : (List.range 2).foldl (fun s i => (List.range 16).foldl (charInnerSk 16 i) s) ((0 : Nat), (832 : Int), ([] : List Nat)) = ((0 : Nat), (832 : Int), ([] : List Nat)) := by
    rw [show List.range 2 = List.range 1 ++ [1] from List.range_succ 1, List.foldl_append, h1]
    decide
  have h3 : (List.range 3).foldl (fun s i => (List.range 16).foldl (charInnerSk 16 i) s) ((0 : Nat), (832 : Int), ([] : List Nat)) = ((0 : Nat), (832 : Int), ([] : List Nat)) := by
    rw [show List.range 3 = List.range 2 ++ [2] from List.range_succ 2, List.foldl_append, h2]
    decide
  have h4 : (List.range 4).foldl (fun s i => (List.range 16).foldl (charInnerSk 16 i) s) ((0 : Nat), (832 : Int), ([] : List Nat)) = ((0 : Nat), (832 : Int), ([] : List Nat)) := by
    rw [show List.range 4 = List.range 3 ++ [3] from List.range_succ 3, List.foldl_append, h3]
    decide
  have h5 : (List.range 5).foldl (fun s i => (List.range 16).foldl (charInnerSk 16 i) s) ((0 : Nat), (832 : Int), ([] : List Nat)) = ((0 : Nat), (832 : Int), ([] : List Nat)) := by
    rw [show List.range 5 = List.range 4 ++ [4] from List.range_succ 4, List.foldl_append, h4]
    decide
  have h6 : (List.range 6).foldl (fun s i => (List.range 16).foldl (charInnerSk 16 i) s) ((0 : Nat), (832 : Int), ([] : List Nat)) = ((0 : Nat), (832 : Int), ([] : List Nat)) := by
    rw [show List.range 6 = List.range 5 ++ [5] from List.range_succ 5, List.foldl_append, h5]
    decide
  have h7 : (List.range 7).foldl (fun s i => (List.range 16).foldl (charInnerSk 16 i) s) ((0 : Nat), (832 : Int), ([] : List Nat)) = ((0 : Nat), (832 : Int), ([] : List Nat)) := by
    rw [show List.range 7 = List.range 6 ++ [6] from List.range_succ 6, List.foldl_append, h6]
    decide
  have h8 : (List.range 8).foldl (fun s i => (List.range 16).foldl (charInnerSk 16 i) s) ((0 : Nat), (832 : Int), ([] : List Nat)) = ((0 : Nat), (832 : Int), ([] : List Nat)) := by
    rw [show List.range 8 = List.range 7 ++ [7] from List.range_succ 7, List.foldl_append, h7]
    decide
  have h9 : (List.range 9).foldl (fun s i => (List.range 16).foldl (charInnerSk 16 i) s) ((0 : Nat), (832 : Int), ([] : List Nat)) = ((1 : Nat), (576 : Int), ([256] : List Nat)) := by
    rw [show List.range 9 = List.range 8 ++ [8] from List.range_succ 8, List.foldl_append, h8]
    decide
  have h10 : (List.range 10).foldl (fun s i => (List.range 16).foldl (charInnerSk 16 i) s) ((0 : Nat), (832 : Int), ([] : List Nat)) = ((1 : Nat), (576 : Int), ([256] : List Nat)) := by
    rw [show List.range 10 = List.range 9 ++ [9] from List.range_succ 9, List.foldl_append, h9]
    decide
  have h11 : (List.range 11).foldl (fun s i => (List.range 16).foldl (charInnerSk 16 i) s) ((0 : Nat), (832 : Int), ([] : List Nat)) = ((1 : Nat), (576 : Int), ([256] : List Nat)) := by
    rw [show List.range 11 = List.range 10 ++ [10] from List.range_succ 10, List.foldl_append, h10]
    decide
  have h12 : (List.range 12).foldl (fun s i => (List.range 16).foldl (charInnerSk 16 i) s) ((0 : Nat), (832 : Int), ([] : List Nat)) = ((1 : Nat), (576 : Int), ([256] : List Nat)) := by
    rw [show List.range 12 = List.range 11 ++ [11] from List.range_succ 11, List.foldl_append, h11]
    decide
  have h13 : (List.range 13).foldl (fun s i => (List.range 16).foldl (charInnerSk 16 i) s) ((0 : Nat), (832 : Int), ([] : List Nat)) = ((1 : Nat), (576 : Int), ([256] : List Nat)) := by
    rw [show List.range 13 = List.range 12 ++ [12] from List.range_succ 12, List.foldl_append, h12]
    decide
  have h14 : (List.range 14).foldl (fun s i => (List.range 16).foldl (charInnerSk 16 i) s) ((0 : Nat), (832 : Int), ([] : List Nat)) = ((1 : Nat), (576 : Int), ([256] : List Nat)) := by
    rw [show List.range 14 = List.range 13 ++ [13] from List.range_succ 13, List.foldl_append, h13]
    decide
  have h15 : (List.range 15).foldl (fun s i => (List.range 16).foldl (charInnerSk 16 i) s) ((0 : Nat), (832 : Int), ([] : List Nat)) = ((1 : Nat), (576 : Int), ([256] : List Nat)) := by
    rw [show List.range 15 = List.range 14 ++ [14] from List.range_succ 14, List.foldl_append, h14]
    decide
  have h16 : (List.range 16).foldl (fun s i => (List.range 16).foldl (charInnerSk 16 i) s) ((0 : Nat), (832 : Int), ([] : List Nat)) = ((1 : Nat), (576 : Int), ([256] : List Nat)) := by
    nth_rewrite 2 [show List.range 16 = List.range 15 ++ [15] from List.range_succ 15]
    rw [List.foldl_append, h15]
    decide
  have h17 : (List.range 17).foldl (fun s i => (List.range 16).foldl (charInnerSk 16 i) s) ((0 : Nat), (832 : Int), ([] : List Nat)) = ((2 : Nat), (320 : Int), ([256, 256] : List Nat)) := by
    rw [show List.range 17 = List.range 16 ++ [16] from List.range_succ 16, List.foldl_append, h16]
    decide
  have h18 : (List.range 18).foldl (fun s i => (List.range 16).foldl (charInnerSk 16 i) s) ((0 : Nat), (832 : Int), ([] : List Nat)) = ((2 : Nat), (320 : Int), ([256, 256] : List Nat)) := by
    rw [show List.range 18 = List.range 17 ++ [17] from List.range_succ 17, List.foldl_append, h17]
    decide
  have h19 : (List.range 19).foldl (fun s i => (List.range 16).foldl (charInnerSk 16 i) s) ((0 : Nat), (832 : Int), ([] : List Nat)) = ((2 : Nat), (320 : Int), ([256, 256] : List Nat)) := by
    rw [show List.range 19 = List.range 18 ++ [18] from List.range_succ 18, List.foldl_append, h18]
    decide
  have h20 : (List.range 20).foldl (fun s i => (List.range 16).foldl (charInnerSk 16 i) s) ((0 : Nat), (832 : Int), ([] : List Nat)) = ((2 : Nat), (320 : Int), ([256, 256] : List Nat)) := by
    rw [show List.range 20 = List.range 19 ++ [19] from List.range_succ 19, List.foldl_append, h19]
    decide
  have h21 : (List.range 21).foldl (fun s i => (List.range 16).foldl (charInnerSk 16 i) s) ((0 : Nat), (832 : Int), ([] : List Nat)) = ((2 : Nat), (320 : Int), ([256, 256] : List Nat)) := by
    rw [show List.range 21 = List.range 20 ++ [20] from List.range_succ 20, List.foldl_append, h20]
    decide
  have h22 : (List.range 22).foldl (fun s i => (List.range 16).foldl (charInnerSk 16 i) s) ((0 : Nat), (832 : Int), ([] : List Nat)) = ((2 : Nat), (320 : Int), ([256, 256] : List Nat)) := by
    rw [show List.range 22 = List.range 21 ++ [21] from List.range_succ 21, List.foldl_append, h21]
    decide
  have h23 : (List.range 23).foldl (fun s i => (List.range 16).foldl (charInnerSk 16 i) s) ((0 : Nat), (832 : Int), ([] : List Nat)) = ((2 : Nat), (320 : Int), ([256, 256] : List Nat)) := by
    rw [show List.range 23 = List.range 22 ++ [22] from List.range_succ 22, List.foldl_append, h22]
    decide
  have h24 : (List.range 24).foldl (fun s i => (List.range 16).foldl (charInnerSk 16 i) s) ((0 : Nat), (832 : Int), ([] : List Nat)) = ((2 : Nat), (320 : Int), ([256, 256] : List Nat)) := by
    rw [show List.range 24 = List.range 23 ++ [23] from List.range_succ 23, List.foldl_append, h23]
    decide
  have h25 : (List.range 25).foldl (fun s i => (List.range 16).foldl (charInnerSk 16 i) s) ((0 : Nat), (832 : Int), ([] : List Nat)) = ((3 : Nat), (64 : Int), ([256, 256, 256] : List Nat)) := by
    rw [show List.range 25 = List.range 24 ++ [24] from List.range_succ 24, List.foldl_append, h24]
    decide
  have h26 : (List.range 26).foldl (fun s i => (List.range 16).foldl (charInnerSk 16 i) s) ((0 : Nat), (832 : Int), ([] : List Nat)) = ((3 : Nat), (64 : Int), ([256, 256, 256] : List Nat)) := by
    rw [show List.range 26 = List.range 25 ++ [25] from List.range_succ 25, List.foldl_append, h25]
    decide
  exact h26

end CharLemmas

/-- Claim C5: for a font with glyph width 16 and glyph height 26, every
`ILI9341DrawChar` call emits exactly `16*26*2 = 832` bytes of
pixel-stream payload after the memory-write command, chunked as 3 full
256-byte chunks followed by one final 64-byte chunk — for any position,
character, colors, font bitmap, and prior buffer content (the full trace
additionally carries the two 4-byte window parameter packets). -/
theorem C5_drawchar_chunks (st : OrientationProps) (x y ch fg bg : Nat)
    (fdata : Int → Nat) (pixel0 : Nat → Nat) :
    chunkSizes (drawCharStream ⟨16, 26, fdata⟩ ch fg bg pixel0) = [256, 256, 256, 64]
    ∧ payloadBytes (drawCharStream ⟨16, 26, fdata⟩ ch fg bg pixel0) = 832
    ∧ chunkSizes (ILI9341DrawChar st x y ch ⟨16, 26, fdata⟩ fg bg pixel0) =
        [4, 4, 256, 256, 256, 64] := by
  have hinit : wrap32s (((26 * 16 * 2 : Nat) : Int)) = 832 := by decide
  have hsk : (List.range 26).foldl
      (fun s i => (List.range 16).foldl (charInnerSk 16 i) s)
      (0, wrap32s (((26 * 16 * 2 : Nat) : Int)), []) = (3, 64, [256, 256, 256]) := by
    rw [hinit]
    exact charSk_16_26
  have hrel := charLoop_rel 16 26 fdata ch fg bg
    ⟨0, wrap32s (((26 * 16 * 2 : Nat) : Int)), pixel0, []⟩
    (0, wrap32s (((26 * 16 * 2 : Nat) : Int)), []) ⟨rfl, rfl, rfl⟩
  rw [hsk] at hrel
  have hbc : (charLoop 16 26 fdata ch fg bg
      ⟨0, wrap32s (((26 * 16 * 2 : Nat) : Int)), pixel0, []⟩).bytes_count = 64 := hrel.2.1
  have hout : chunkSizes (charLoop 16 26 fdata ch fg bg
      ⟨0, wrap32s (((26 * 16 * 2 : Nat) : Int)), pixel0, []⟩).out = [256, 256, 256] := hrel.2.2
  have hone : ∀ bs : List Nat, chunkSizes [Ev.data bs] = [bs.length] := by
    intro bs
    simp [chunkSizes]
  have hlen : ((bufList (charLoop 16 26 fdata ch fg bg
      ⟨0, wrap32s (((26 * 16 * 2 : Nat) : Int)), pixel0, []⟩).buf).take
        (Int.toNat 64)).length = 64 := by
    rw [List.length_take, bufList_length]
    decide
  have hstream : chunkSizes (drawCharStream ⟨16, 26, fdata⟩ ch fg bg pixel0) =
      [256, 256, 256, 64] := by
    rw [drawCharStream]
    rw [chunkSizes_append, hout, hbc,
      writeLCD_final_chunk _ 64 (by norm_num) (by norm_num),
      if_neg (by norm_num : ¬ (64 : Int) = 0), hone, hlen]
    rfl
  refine ⟨hstream, ?_, ?_⟩
  · rw [payloadBytes, hstream]
    decide
  · rw [ILI9341DrawChar, chunkSizes_append, chunkSizes_append, chunkSizes_window,
      writeLCD_memwrite, hstream]
    simp [chunkSizes]

/-- `ILI9341DrawString` from ili9341.c, abstracted to the sequence of
`ILI9341DrawChar` calls it makes: each element is `(lcd_x, lcd_y,
character)`.  `x0` is the original `x` parameter (the newline handler
resets `lcd_x` to it when no `'\r'` follows), `FW`/`FH` the font
dimensions.  The C loop tests `*str != '\0'` only at the top: after
consuming a `'\n'` (plus an optional following `'\r'`) or a `'\r'`, it
falls through and passes the current `*str` to `ILI9341DrawChar`
unchecked — when the string ends there, that character is the NUL
terminator itself, after which the C loop would advance past the
terminator (undefined behaviour); the model stops at that point. -/
def drawStringCalls (x0 FW FH : Nat) : Nat → Nat → List Nat → List (Nat × Nat × Nat)
  | _, _, [] => []
  | x, y, c :: rest =>
    if c = 0 then []
    else if c = 10 then
      match rest with
      | 13 :: r2 =>
        match r2 with
        | [] => [(0, y + FH + 1, 0)]
        | c2 :: r3 =>
          (0, y + FH + 1, c2) :: drawStringCalls x0 FW FH (0 + FW) (y + FH + 1) r3
      | [] => [(x0, y + FH + 1, 0)]
      | c2 :: r3 =>
        (x0, y + FH + 1, c2) :: drawStringCalls x0 FW FH (x0 + FW) (y + FH + 1) r3
    else if c = 13 then
      match rest with
      | [] => [(x, y, 0)]
      | c2 :: r3 => (x, y, c2) :: drawStringCalls x0 FW FH (x + FW) y r3
    else
      (x, y, c) :: drawStringCalls x0 FW FH (x + FW) y rest

section StringLemmas

/-- Strings of printable characters with a single trailing newline or
carriage return always reach the fall-through `DrawChar` call at the
terminator. -/
lemma drawString_nul_aux (x0 FW FH : Nat) :
    ∀ l : List Nat, ∀ hne : l ≠ [],
      (l.getLast hne = 10 ∨ l.getLast hne = 13) →
      (∀ c ∈ l.dropLast, c ≠ 0 ∧ c ≠ 10 ∧ c ≠ 13) →
      ∀ x y : Nat, ∃ a b : Nat, (a, b, (0 : Nat)) ∈ drawStringCalls x0 FW FH x y l := by
  intro l
  induction l with
  | nil => intro hne; exact absurd rfl hne
  | cons c rest ih =>
    intro hne hlast hbody x y
    rcases rest with _ | ⟨c2, r3⟩
    · have hc : c = 10 ∨ c = 13 := by simpa using hlast
      rcases hc with rfl | rfl
      · refine ⟨x0, y + FH + 1, ?_⟩
        rw [show drawStringCalls x0 FW FH x y [10] = [(x0, y + FH + 1, 0)] from rfl]
        exact List.mem_singleton.2 rfl
      · refine ⟨x, y, ?_⟩
        rw [show drawStringCalls x0 FW FH x y [13] = [(x, y, 0)] from rfl]
        exact List.mem_singleton.2 rfl
    · have hcbody : c ≠ 0 ∧ c ≠ 10 ∧ c ≠ 13 := by
        refine hbody c ?_
        rw [List.dropLast_cons₂]
        exact List.mem_cons_self _ _
      have hlast' : (c2 :: r3).getLast (by simp) = 10 ∨ (c2 :: r3).getLast (by simp) = 13 := by
        rwa [List.getLast_cons (by simp)] at hlast
      have hbody' : ∀ d ∈ (c2 :: r3).dropLast, d ≠ 0 ∧ d ≠ 10 ∧ d ≠ 13 := by
        intro d hd
        refine hbody d ?_
        rw [List.dropLast_cons₂]
        exact List.mem_cons_of_mem _ hd
      obtain ⟨a, b, hmem⟩ := ih (by simp) hlast' hbody' (x + FW) y
      have hstep : drawStringCalls x0 FW FH x y (c :: c2 :: r3) =
          (x, y, c) :: drawStringCalls x0 FW FH (x + FW) y (c2 :: r3) := by
        rw [drawStringCalls.eq_def]
        dsimp only
        rw [if_neg hcbody.1, if_neg hcbody.2.1, if_neg hcbody.2.2]
      exact ⟨a, b, by rw [hstep]; exact List.mem_cons_of_mem _ hmem⟩

end StringLemmas

/-- Claim C10 counterexample: the string of two newlines is non-empty and
its last character is a newline, yet `DrawString` never calls `DrawChar`
with the NUL terminator: the first newline's handler falls through and
passes the second newline to `DrawChar`, and the loop then exits at the
terminator.  The call list is exactly `[(0, 27, 10)]` (for `FW=16`,
`FH=26`, start `(0,0)`). -/
theorem C10_drawstring_cex :
    (([10, 10] : List Nat) ≠ [] ∧ (0 : Nat) ∉ ([10, 10] : List Nat) ∧
      ([10, 10] : List Nat).getLast (by decide) = 10)
    ∧ ∀ a b : Nat, (a, b, (0 : Nat)) ∉ drawStringCalls 0 16 26 0 0 [10, 10] := by
  refine ⟨⟨by decide, by decide, by decide⟩, ?_⟩
  intro a b
  rw [show drawStringCalls 0 16 26 0 0 [10, 10] = [(0, 27, 10)] from rfl]
  simp

/-- Claim C10 (amended): for every non-empty string made of printable
characters (no NUL, `'\n'`, `'\r'`) followed by one trailing `'\n'` or
`'\r'`, `DrawString` calls `DrawChar` with the NUL terminator (character
code 0), and the font-bitmap row index `(0 - ' ') * FontHeight + i` that
`DrawChar` computes for it is negative for every glyph row — an access
outside the font data.  (When the trailing newline immediately follows
another `'\n'`/`'\r'` it is itself passed to `DrawChar` instead and no
NUL call occurs; see the counterexample.) -/
theorem C10_drawstring_nul (x0 FW FH : Nat) (l : List Nat) (hne : l ≠ [])
    (hlast : l.getLast hne = 10 ∨ l.getLast hne = 13)
    (hbody : ∀ c ∈ l.dropLast, c ≠ 0 ∧ c ≠ 10 ∧ c ≠ 13) (x y : Nat) :
    (∃ a b : Nat, (a, b, (0 : Nat)) ∈ drawStringCalls x0 FW FH x y l)
    ∧ ∀ i : Nat, i < FH → charRowIndex 0 FH i < 0 := by
  constructor
  · exact drawString_nul_aux x0 FW FH l hne hlast hbody x y
  · intro i hi
    rw [charRowIndex]
    omega

theorem C10_drawstring_nul_witness :
    (∃ a b : Nat, (a, b, (0 : Nat)) ∈ drawStringCalls 5 16 26 5 7 [65, 10])
    ∧ ∀ i : Nat, i < 26 → charRowIndex 0 26 i < 0 :=
  C10_drawstring_nul 5 16 26 [65, 10] (by decide) (by decide) (by decide) 5 7

/-- The eight octant-reflection images of the offset `(a, b)` about the
center `(x0, y0)` — exactly the eight pixels one midpoint-circle
iteration of `ILI9341DrawCircle` draws for its updated `(x, y)`. -/
def orbitList (x0 y0 a b : Int) : List (Int × Int) :=
  [(x0 + a, y0 + b), (x0 - a, y0 + b), (x0 + a, y0 - b), (x0 - a, y0 - b),
   (x0 + b, y0 + a), (x0 - b, y0 + a), (x0 + b, y0 - a), (x0 - b, y0 - a)]

/-- Symmetry of a pixel list under the eight octant reflections about
`(x0, y0)`: with every drawn offset, all eight of its reflections are
drawn. -/
def SymAbout (x0 y0 : Int) (L : List (Int × Int)) : Prop :=
  ∀ dx dy : Int, (x0 + dx, y0 + dy) ∈ L → ∀ q ∈ orbitList x0 y0 dx dy, q ∈ L

/-- The while-loop of `ILI9341DrawCircle`: the midpoint decision step on
the `int16_t` state (`f`, `ddF_x`, `ddF_y`, `x`, `y`), then the eight
symmetric pixels at the updated `(x, y)`.  The range hypotheses record
that `x` and `y` are `int16_t` values (true at entry and preserved), the
invariant that makes the C loop terminate. -/
def circleLoop (x0 y0 : Int) (f ddF_x ddF_y x y : Int)
    (_hx : -32768 ≤ x ∧ x ≤ 32767) (hy : -32768 ≤ y ∧ y ≤ 32767) :
    List (Int × Int) :=
  if x < y then
    orbitList x0 y0 (wrap16s (x + 1)) (if f ≥ 0 then wrap16s (y - 1) else y) ++
      circleLoop x0 y0
        (wrap16s ((if f ≥ 0 then wrap16s (f + wrap16s (ddF_y + 2)) else f) +
          wrap16s (ddF_x + 2)))
        (wrap16s (ddF_x + 2))
        (if f ≥ 0 then wrap16s (ddF_y + 2) else ddF_y)
        (wrap16s (x + 1))
        (if f ≥ 0 then wrap16s (y - 1) else y)
        ⟨(wrap16s_bounds _).1, (wrap16s_bounds _).2⟩
        (by by_cases hf : f ≥ 0
            · simp only [if_pos hf]
              exact ⟨(wrap16s_bounds _).1, (wrap16s_bounds _).2⟩
            · simp only [if_neg hf]
              exact hy)
  else []
termination_by (y - x).toNat
decreasing_by
  simp only [wrap16s]
  split_ifs <;> omega

/-- `ILI9341DrawCircle` from ili9341.c: the four cardinal pixels at
distance `r` from the center, then the midpoint loop starting at
`(0, r)` with `f = 1 - r`, `ddF_x = 1`, `ddF_y = -2r`.  Parameters are
`int16_t`, so arbitrary `Int` arguments are truncated at entry as the C
calling convention does; each returned pair is the (pre-`uint16_t`)
coordinate pair of one `ILI9341DrawPixel` call. -/
def ILI9341DrawCircle (x0a y0a ra : Int) : List (Int × Int) :=
  [(wrap16s x0a, wrap16s y0a + wrap16s ra), (wrap16s x0a, wrap16s y0a - wrap16s ra),
   (wrap16s x0a + wrap16s ra, wrap16s y0a), (wrap16s x0a - wrap16s ra, wrap16s y0a)] ++
  circleLoop (wrap16s x0a) (wrap16s y0a)
    (wrap16s (1 - wrap16s ra)) 1 (wrap16s (-2 * wrap16s ra)) 0 (wrap16s ra)
    ⟨by norm_num, by norm_num⟩ ⟨(wrap16s_bounds _).1, (wrap16s_bounds _).2⟩

section CircleLemmas

lemma orbit_mem_iff (x0 y0 a b p q : Int) :
    (p, q) ∈ orbitList x0 y0 a b ↔
      ((p = x0 + a ∨ p = x0 - a) ∧ (q = y0 + b ∨ q = y0 - b)) ∨
        ((p = x0 + b ∨ p = x0 - b) ∧ (q = y0 + a ∨ q = y0 - a)) := by
  simp only [orbitList, List.mem_cons, List.not_mem_nil, or_false, Prod.mk.injEq]
  tauto

/-- An orbit is closed under taking the orbit of any of its members. -/
lemma orbit_closed (x0 y0 a b dx dy : Int)
    (h : (x0 + dx, y0 + dy) ∈ orbitList x0 y0 a b) :
    ∀ q ∈ orbitList x0 y0 dx dy, q ∈ orbitList x0 y0 a b := by
  rintro ⟨p, q⟩ hq
  rw [orbit_mem_iff] at h hq ⊢
  omega

lemma SymAbout_append {x0 y0 : Int} {L1 L2 : List (Int × Int)}
    (h1 : SymAbout x0 y0 L1) (h2 : SymAbout x0 y0 L2) :
    SymAbout x0 y0 (L1 ++ L2) := by
  intro dx dy hmem q hq
  rcases List.mem_append.1 hmem with h | h
  · exact List.mem_append.2 (Or.inl (h1 dx dy h q hq))
  · exact List.mem_append.2 (Or.inr (h2 dx dy h q hq))

lemma SymAbout_orbit (x0 y0 a b : Int) : SymAbout x0 y0 (orbitList x0 y0 a b) :=
  fun dx dy hmem q hq => orbit_closed x0 y0 a b dx dy hmem q hq

lemma SymAbout_nil (x0 y0 : Int) : SymAbout x0 y0 ([] : List (Int × Int)) :=
  fun _ _ h => absurd h (List.not_mem_nil _)

/-- The four cardinal pixels form a symmetric set (they are the orbit of
the offset `(0, r)` without its duplicates). -/
lemma sym_cardinal (cx cy r : Int) :
    SymAbout cx cy [(cx, cy + r), (cx, cy - r), (cx + r, cy), (cx - r, cy)] := by
  rintro dx dy hmem ⟨p, q⟩ hq
  rw [orbit_mem_iff] at hq
  simp only [List.mem_cons, List.not_mem_nil, or_false, Prod.mk.injEq] at hmem ⊢
  omega

/-- Every pixel list the circle loop emits is a union of full octant
orbits, hence symmetric. -/
lemma circleLoop_sym (x0 y0 : Int) :
    ∀ n : Nat, ∀ f dfx dfy x y hx hy, (y - x).toNat = n →
      SymAbout x0 y0 (circleLoop x0 y0 f dfx dfy x y hx hy) := by
  intro n
  induction n using Nat.strong_induction_on with
  | _ n ih =>
    intro f dfx dfy x y hx hy hn
    rw [circleLoop]
    split
    · next hlt =>
      refine SymAbout_append (SymAbout_orbit _ _ _ _) ?_
      refine ih _ ?_ _ _ _ _ _ _ _ rfl
      simp only [wrap16s]
      split_ifs <;> omega
    · next hge =>
      exact SymAbout_nil x0 y0

end CircleLemmas

/-- Claim C7: for every circle drawn by `ILI9341DrawCircle` with center
`(x0, y0)` and radius `r` (all `int16_t` values), the four cardinal
points `(x0, y0±r)` and `(x0±r, y0)` are drawn, and the set of drawn
pixels is symmetric under the eight octant reflections about the center:
with every drawn pixel at offset `(dx, dy)`, all of `(x0±dx, y0±dy)` and
`(x0±dy, y0±dx)` are drawn. -/
theorem C7_circle_symmetry (x0 y0 r : Int)
    (hx0 : -32768 ≤ x0 ∧ x0 ≤ 32767) (hy0 : -32768 ≤ y0 ∧ y0 ≤ 32767)
    (hr : -32768 ≤ r ∧ r ≤ 32767) :
    ((x0, y0 + r) ∈ ILI9341DrawCircle x0 y0 r ∧
      (x0, y0 - r) ∈ ILI9341DrawCircle x0 y0 r ∧
      (x0 + r, y0) ∈ ILI9341DrawCircle x0 y0 r ∧
      (x0 - r, y0) ∈ ILI9341DrawCircle x0 y0 r)
    ∧ SymAbout x0 y0 (ILI9341DrawCircle x0 y0 r) := by
  have hwx : wrap16s x0 = x0 := wrap16s_eq_self hx0.1 hx0.2
  have hwy : wrap16s y0 = y0 := wrap16s_eq_self hy0.1 hy0.2
  have hwr : wrap16s r = r := wrap16s_eq_self hr.1 hr.2
  rw [ILI9341DrawCircle]
  simp only [hwx, hwy, hwr]
  constructor
  · refine ⟨?_, ?_, ?_, ?_⟩ <;> exact List.mem_append.2 (Or.inl (by simp))
  · exact SymAbout_append (sym_cardinal x0 y0 r)
      (circleLoop_sym x0 y0 _ _ _ _ _ _ _ _ rfl)

theorem C7_circle_symmetry_witness :
    (((3 : Int), (9 : Int)) ∈ ILI9341DrawCircle 3 5 4 ∧
      ((3 : Int), (1 : Int)) ∈ ILI9341DrawCircle 3 5 4 ∧
      ((7 : Int), (5 : Int)) ∈ ILI9341DrawCircle 3 5 4 ∧
      ((-1 : Int), (5 : Int)) ∈ ILI9341DrawCircle 3 5 4)
    ∧ SymAbout 3 5 (ILI9341DrawCircle 3 5 4) := by
  have h := C7_circle_symmetry 3 5 4 (by norm_num) (by norm_num) (by norm_num)
  norm_num at h
  exact h

theorem C8_clamping_behavior_witness :
    ILI9341DrawLinePx (rotateProps ili9341_orientation_t.ILI9341_Portrait_1) 500 0 3 1 =
      ILI9341DrawLinePx (rotateProps ili9341_orientation_t.ILI9341_Portrait_1)
        (min 500 ((rotateProps ili9341_orientation_t.ILI9341_Portrait_1).width - 1))
        (min 0 ((rotateProps ili9341_orientation_t.ILI9341_Portrait_1).height - 1))
        (min 3 ((rotateProps ili9341_orientation_t.ILI9341_Portrait_1).width - 1))
        (min 1 ((rotateProps ili9341_orientation_t.ILI9341_Portrait_1).height - 1))
    ∧ SetCursorPosition 1 2 3 4 =
        [Ev.command COLUMN_ADDR_SET,
         Ev.data [HighByte 1, LowByte 1, HighByte 3, LowByte 3],
         Ev.command PAGE_ADDR_SET,
         Ev.data [HighByte 2, LowByte 2, HighByte 4, LowByte 4]] :=
  ⟨C8_clamping_behavior.1 ili9341_orientation_t.ILI9341_Portrait_1 500 0 3 1,
   C8_clamping_behavior.2.2 1 2 3 4 (by decide) (by decide)⟩
